import Mathlib

/-!
Verification of `src/code/parallel_quick_sort_stack.hpp`, a work-stealing
parallel quicksort over `std::list` built on a mutex-guarded stack of chunks.

The embedding is sequential: the value computed by `do_sort` is a pure
function of the input list (the data flow of the splices in the source),
mutexes and promises only sequence that data flow.  Machine-level aspects
(the throwing `pop`, the worker-loop step, the unsigned thread cap) are
embedded as explicit `Except` results, a one-iteration step function, and
arithmetic modulo `2 ^ 32`.
-/

namespace PQS

/-- The `EmptyStack` error type thrown by `ConcurrentStack::pop` on an empty
stack (`struct EmptyStack : std::exception`). -/
structure EmptyStack where
  deriving DecidableEq

/-- `ConcurrentStack::push`: the underlying `std::stack` with the top at the
head of the list. -/
def ConcurrentStack.push {α : Type*} (x : α) (s : List α) : List α :=
  x :: s

/-- `ConcurrentStack::pop` (the blocking-style variant): throws `EmptyStack`
when the stack is empty, otherwise moves the top element out and pops it. -/
def ConcurrentStack.pop {α : Type*} : List α → Except EmptyStack (α × List α)
  | [] => .error ⟨⟩
  | x :: s => .ok (x, s)

variable {α : Type*} [LinearOrder α]

/-- The "less than pivot" side produced by
`std::partition(v.begin(), v.end(), [&](const T& val) { return val < firstVal; })`:
the elements of the remainder that are strictly below the pivot
(spliced into `low.data`). -/
def lowChunk (p : α) (t : List α) : List α :=
  t.filter (fun x => decide (x < p))

/-- The "rest" left in `v` after the partition: the elements not strictly
below the pivot (ties with the pivot stay here). -/
def restChunk (p : α) (t : List α) : List α :=
  t.filter (fun x => !decide (x < p))

/-- Sequential embedding of `sorter::do_sort`: empty list returned as is;
otherwise the first element is spliced out as pivot, the remainder is
partitioned into `lowChunk`/`restChunk`, and the result is spliced together
as `sorted low ++ pivot :: sorted rest`. -/
def do_sort : List α → List α
  | [] => []
  | p :: t => do_sort (lowChunk p t) ++ p :: do_sort (restChunk p t)
termination_by v => v.length
decreasing_by
  all_goals
    simp only [lowChunk, restChunk, List.length_cons, Nat.lt_succ_iff]
    exact List.length_filter_le _ _

/-- `sorter::sort_chunk`: fulfills a chunk's promise with `do_sort` of its
data; the fulfilled value is the model of the promise. -/
def sort_chunk (c : List α) : List α :=
  do_sort c

/-- `sorter::try_sort_chunk`: pops the chunk stack with the throwing
`ConcurrentStack::pop` and, on success, sorts the chunk.  The error of the
pop propagates out. -/
def try_sort_chunk (chunks : List (List α)) :
    Except EmptyStack (List α × List (List α)) :=
  match ConcurrentStack.pop chunks with
  | .error e => .error e
  | .ok (c, rest) => .ok (sort_chunk c, rest)

/-- Outcome of one iteration of the worker loop in `sorter::sort_thread`. -/
inductive WorkerStep (α : Type*) where
  | running (chunks : List (List α)) (fulfilled : List α)
  | stopped
  | crashed (e : EmptyStack)
  deriving DecidableEq

/-- One iteration of `sorter::sort_thread`'s loop
`while (!end_of_data) { try_sort_chunk(); std::this_thread::yield(); }`:
if the stop flag is set the loop exits normally; otherwise `try_sort_chunk`
runs, and an `EmptyStack` escaping it ends the loop abnormally. -/
def sort_thread_step (end_of_data : Bool) (chunks : List (List α)) :
    WorkerStep α :=
  if end_of_data then .stopped
  else
    match try_sort_chunk chunks with
    | .error e => .crashed e
    | .ok (r, rest) => .running rest r

/-- Number of chunks packaged and pushed by `do_sort` over a whole
(sequential) run: one `chunk_to_sort` per non-empty invocation. -/
def chunksPackaged : List α → Nat
  | [] => 0
  | p :: t => 1 + chunksPackaged (lowChunk p t) + chunksPackaged (restChunk p t)
termination_by v => v.length
decreasing_by
  all_goals
    simp only [lowChunk, restChunk, List.length_cons, Nat.lt_succ_iff]
    exact List.length_filter_le _ _

/-- `sorter::sorter` initializes
`max_thread_count(std::thread::hardware_concurrency() - 1)`: unsigned
32-bit subtraction, so the value is `hc - 1` modulo `2 ^ 32`. -/
def max_thread_count (hc : Nat) : Nat :=
  (hc + (2 ^ 32 - 1)) % 2 ^ 32

/-- `parallel_quick_sort`, instrumented with the number of `sorter` sessions
constructed: an empty input is returned at once (no session), otherwise one
`sorter` is constructed and `do_sort` invoked once on it. -/
def parallel_quick_sort_instr (v : List α) : List α × Nat :=
  if v.isEmpty then (v, 0) else (do_sort v, 1)

/-- The value returned by `parallel_quick_sort`. -/
def parallel_quick_sort (v : List α) : List α :=
  (parallel_quick_sort_instr v).1

/-! ### Helper lemmas -/

theorem mem_lowChunk {p x : α} {t : List α} : x ∈ lowChunk p t ↔ x ∈ t ∧ x < p := by
  simp [lowChunk]

theorem mem_restChunk {p x : α} {t : List α} : x ∈ restChunk p t ↔ x ∈ t ∧ ¬x < p := by
  simp [restChunk]

theorem lowChunk_append_restChunk_perm (p : α) (t : List α) :
    (lowChunk p t ++ restChunk p t).Perm t :=
  List.filter_append_perm _ t

theorem do_sort_perm : ∀ v : List α, (do_sort v).Perm v := by
  intro v
  induction v using do_sort.induct with
  | case1 => simp [do_sort]
  | case2 p t ih1 ih2 =>
    rw [do_sort]
    exact ((ih1.append (ih2.cons p)).trans List.perm_middle).trans
      ((lowChunk_append_restChunk_perm p t).cons p)

theorem do_sort_sorted : ∀ v : List α, (do_sort v).Sorted (· ≤ ·) := by
  intro v
  induction v using do_sort.induct with
  | case1 => simp [do_sort]
  | case2 p t ih1 ih2 =>
    rw [do_sort, List.Sorted, List.pairwise_append]
    refine ⟨ih1, ?_, ?_⟩
    · rw [List.pairwise_cons]
      refine ⟨fun b hb => ?_, ih2⟩
      have hb' := ((do_sort_perm _).mem_iff.mp hb)
      exact le_of_not_lt (mem_restChunk.mp hb').2
    · intro a ha b hb
      have ha' : a < p := (mem_lowChunk.mp ((do_sort_perm _).mem_iff.mp ha)).2
      rcases List.mem_cons.mp hb with rfl | hb'
      · exact ha'.le
      · have hbp := (mem_restChunk.mp ((do_sort_perm _).mem_iff.mp hb')).2
        exact ha'.le.trans (le_of_not_lt hbp)

/-- The concrete scenario of the spec: `[5, 3, 8, 1, 9, 2, 7]` sorts to
`[1, 2, 3, 5, 7, 8, 9]`, and duplicates are preserved. -/
theorem do_sort_concrete :
    do_sort [5, 3, 8, 1, 9, 2, 7] = [1, 2, 3, 5, 7, 8, 9] ∧
      do_sort [3, 3, 1] = [1, 3, 3] := by
  constructor <;> simp [do_sort, lowChunk, restChunk]

/-! ### Claims -/

/-- C1: for every finite input list, `parallel_quick_sort` returns a list that
is a permutation of the input (equal multiset of elements) and is
non-decreasing under the given order: every adjacent output pair `(a, b)`
satisfies `¬b < a`. -/
theorem parallel_quick_sort_perm_and_sorted (v : List α) :
    (parallel_quick_sort v).Perm v ∧
      List.Chain' (fun a b => ¬b < a) (parallel_quick_sort v) := by
  have hperm : (parallel_quick_sort v).Perm v := by
    unfold parallel_quick_sort parallel_quick_sort_instr
    split
    · exact List.Perm.refl _
    · exact do_sort_perm v
  have hs : (parallel_quick_sort v).Sorted (· ≤ ·) := by
    unfold parallel_quick_sort parallel_quick_sort_instr
    split
    · next h => simp_all [List.isEmpty_iff]
    · exact do_sort_sorted v
  exact ⟨hperm, (hs.chain').imp fun a b hab => not_lt.mpr hab⟩

/-- C2 (code-bug evidence): `try_sort_chunk` on an empty chunk stack raises
the `EmptyStack` error.  The pop it performs is the throwing
`ConcurrentStack::pop` with no emptiness guard (no non-failing `try_pop`
exists in this stack), so the error branch IS reachable from
`try_sort_chunk`, contrary to the claim. -/
theorem try_sort_chunk_raises_on_empty :
    try_sort_chunk ([] : List (List ℤ)) = .error ⟨⟩ :=
  rfl

/-- C3 (code-bug evidence): one iteration of the `sort_thread` worker loop
with the stop flag clear and a momentarily empty stack ends the loop
abnormally (the `EmptyStack` thrown by the unguarded pop escapes), so the
loop does not exit only when `end_of_data` is set. -/
theorem sort_thread_step_crashes_on_empty :
    sort_thread_step false ([] : List (List ℤ)) = .crashed ⟨⟩ :=
  rfl

/-- C4: for every non-empty list `p :: t`, `do_sort` reconstructs its result
as [sorted low] ++ [pivot] ++ [sorted rest]: the sorted less-than-pivot
sub-list first, then the pivot, then the recursively sorted rest (each side
is itself sorted). -/
theorem do_sort_reconstruction (p : α) (t : List α) :
    do_sort (p :: t) = do_sort (lowChunk p t) ++ p :: do_sort (restChunk p t) ∧
      (do_sort (lowChunk p t)).Sorted (· ≤ ·) ∧
      (do_sort (restChunk p t)).Sorted (· ≤ ·) :=
  ⟨by rw [do_sort], do_sort_sorted _, do_sort_sorted _⟩

/-- C5: the offloaded "low" chunk holds exactly the elements of the remainder
that are strictly less than the pivot (with multiplicity), ties with the
pivot never enter it and satisfy the "not less" side's predicate, and the
two sides together are a permutation of the remainder. -/
theorem do_sort_partition_strict (p : α) (t : List α) (x : α) :
    (List.count x (lowChunk p t) = if x < p then List.count x t else 0) ∧
      List.count p (lowChunk p t) = 0 ∧
      (∀ y ∈ restChunk p t, ¬y < p) ∧
      (lowChunk p t ++ restChunk p t).Perm t := by
  refine ⟨?_, ?_, fun y hy => (mem_restChunk.mp hy).2,
    lowChunk_append_restChunk_perm p t⟩
  · by_cases hx : x < p
    · simp [lowChunk, List.count_filter, hx]
    · rw [if_neg hx]
      exact List.count_eq_zero.mpr fun hmem => hx (mem_lowChunk.mp hmem).2
  · exact List.count_eq_zero.mpr fun hmem => lt_irrefl p (mem_lowChunk.mp hmem).2

/-- C6 (counterexample): a one-element input does trigger the recursive
partition step and packages one chunk — the code's base case covers only
the empty list, so `chunksPackaged [0] = 1`, not `0` as the claim needs. -/
theorem singleton_packages_a_chunk :
    chunksPackaged ([0] : List ℤ) = 1 ∧ chunksPackaged ([0] : List ℤ) ≠ 0 := by
  constructor <;> simp [chunksPackaged, lowChunk, restChunk]

/-- C6 (amended): the empty list is returned unchanged with no recursion and
no chunk packaged; a one-element list is also returned unchanged, but it
still performs one partition step and packages one (empty) chunk. -/
theorem do_sort_base_case (a : α) :
    do_sort ([] : List α) = [] ∧ chunksPackaged ([] : List α) = 0 ∧
      do_sort [a] = [a] ∧ chunksPackaged [a] = 1 := by
  refine ⟨by rw [do_sort], by rw [chunksPackaged], ?_, ?_⟩
  · simp [do_sort, lowChunk, restChunk]
  · simp [chunksPackaged, lowChunk, restChunk]

/-- C7 (counterexample): when detected hardware concurrency is `0`, the
unsigned computation `hardware_concurrency() - 1` wraps to `2 ^ 32 - 1`
instead of flooring at zero. -/
theorem max_thread_count_wraps_at_zero :
    max_thread_count 0 = 4294967295 ∧ max_thread_count 0 ≠ 0 := by
  norm_num [max_thread_count]

/-- C7 (amended): `max_thread_count` is hardware concurrency minus one taken
modulo `2 ^ 32`, with no clamp: for `hc ≥ 1` it equals `hc - 1`, and for
`hc = 0` it wraps to `2 ^ 32 - 1`. -/
theorem max_thread_count_mod_2_32 (hc : Nat) (h32 : hc < 2 ^ 32) :
    (1 ≤ hc → max_thread_count hc = hc - 1) ∧
      (hc = 0 → max_thread_count hc = 2 ^ 32 - 1) := by
  unfold max_thread_count
  constructor
  · intro h1
    omega
  · rintro rfl
    norm_num

/-- Witness for C7 (amended) at `hc = 4` and `hc = 0`. -/
theorem max_thread_count_mod_2_32_witness :
    max_thread_count 4 = 3 ∧ max_thread_count 0 = 2 ^ 32 - 1 :=
  ⟨(max_thread_count_mod_2_32 4 (by norm_num)).1 (by norm_num),
    (max_thread_count_mod_2_32 0 (by norm_num)).2 rfl⟩

/-- C8: the blocking-style `pop` on an empty `ConcurrentStack` raises the
`EmptyStack` error (never a silent sentinel), and on a non-empty stack it
removes and returns the top, i.e. most recently pushed, element. -/
theorem pop_error_and_lifo {β : Type*} (x : β) (s : List β) :
    ConcurrentStack.pop ([] : List β) = .error ⟨⟩ ∧
      ConcurrentStack.pop (ConcurrentStack.push x s) = .ok (x, s) :=
  ⟨rfl, rfl⟩

/-- C9: the empty input returns immediately with no `sorter` session
constructed (hence no worker thread), while every non-empty input
constructs exactly one session and invokes `do_sort` once on it. -/
theorem parallel_quick_sort_session_discipline (v : List α) :
    parallel_quick_sort_instr ([] : List α) = ([], 0) ∧
      (v ≠ [] → parallel_quick_sort_instr v = (do_sort v, 1)) := by
  refine ⟨rfl, fun h => ?_⟩
  simp [parallel_quick_sort_instr, h]

/-- Witness for C9 at the non-empty input `[2, 1]`. -/
theorem parallel_quick_sort_session_discipline_witness :
    parallel_quick_sort_instr ([] : List ℤ) = ([], 0) ∧
      parallel_quick_sort_instr ([2, 1] : List ℤ) = (do_sort [2, 1], 1) :=
  ⟨(parallel_quick_sort_session_discipline ([2, 1] : List ℤ)).1,
    (parallel_quick_sort_session_discipline ([2, 1] : List ℤ)).2 (by simp)⟩

/-- C10: the sequential embedding of `do_sort` is total — its defining
recursion is on lists strictly shorter than the input since the pivot is
removed before partitioning — and on every input it yields a list of the
same length. -/
theorem do_sort_total (v : List α) (p : α) (t : List α) :
    (do_sort v).length = v.length ∧
      (lowChunk p t).length < (p :: t).length ∧
      (restChunk p t).length < (p :: t).length :=
  ⟨(do_sort_perm v).length_eq,
    Nat.lt_succ_of_le (List.length_filter_le _ _),
    Nat.lt_succ_of_le (List.length_filter_le _ _)⟩

end PQS
